import Mathlib

/-!
Shallow embedding of the pfman process supervisor (src/process.rs, with the
data model of src/models.rs and the storage collaborator interface of
src/storage.rs), together with theorems settling the frozen claims about it.

Modelling conventions:
* `Uuid` is modelled as `Nat`; `DateTime<Utc>` as `Int` (seconds); the
  chrono `format("%Y-%m-%d %H:%M:%S")` result is an opaque `List Char`
  parameter `ts` threaded into each operation.
* Log text is `List Char`, so that Rust's byte-indexed slicing
  (`&result[result.len() - 100..]`) can be modelled at the UTF-8 byte level:
  `byteDrop` returns `none` exactly when the Rust slice would panic on a
  non-character-boundary index.
* The `Storage` collaborator is a `Store`: per-id log contents plus per-id
  read/append failure flags (its `Result`-returning interface is the boundary
  the spec fixes; the file system itself is out of scope).
* `&mut Session` methods are modelled as functions returning the post state
  together with an `ok` flag: Rust's `?` early return corresponds to the
  branches that return the inputs unchanged with `ok := false`.
* The process table probed once per monitor cycle is a predicate
  `alive : Nat → Bool` fixed for the whole cycle, exactly like the single
  `sys` snapshot in `monitor_loop`.
-/

namespace Pfman

/-- UTF-8 encoded size in bytes of one character (the standard encoding table,
matching Rust's `char::len_utf8`). -/
def charBytes (c : Char) : Nat :=
  if c.val < 0x80 then 1
  else if c.val < 0x800 then 2
  else if c.val < 0x10000 then 3
  else 4

/-- Total UTF-8 byte length of a string, Rust's `str::len`. -/
def bytesLen (l : List Char) : Nat :=
  (l.map charBytes).sum

/-- Drop `k` BYTES from the front of a string; `none` when `k` does not land
on a character boundary (where Rust's `&s[k..]` panics). -/
def byteDrop : Nat → List Char → Option (List Char)
  | 0, l => some l
  | _ + 1, [] => none
  | k + 1, c :: rest =>
      if charBytes c ≤ k + 1 then byteDrop (k + 1 - charBytes c) rest else none

/-- Split a string at every newline character; keeps a (possibly empty) final
segment, like Rust's `split('\n')`. -/
def splitNl : List Char → List (List Char)
  | [] => [[]]
  | c :: cs =>
      if c = '\n' then [] :: splitNl cs
      else
        match splitNl cs with
        | [] => [[c]]
        | l :: ls => (c :: l) :: ls

/-- Remove one trailing carriage return, as Rust's `str::lines` does per line. -/
def stripCR (l : List Char) : List Char :=
  if l.getLast? = some '\x0d' then l.dropLast else l

/-- Rust's `str::lines`: split on newlines, drop the final empty segment
produced by a trailing newline, strip one trailing CR from each line. -/
def rustLines (s : List Char) : List (List Char) :=
  match s with
  | [] => []
  | _ =>
      let parts := splitNl s
      let parts := if s.getLast? = some '\n' then parts.dropLast else parts
      parts.map stripCR

/-- Storage collaborator state: per-id log contents and failure behaviour of
the `Result`-returning `read_logs` / `append_log` operations. -/
structure Store where
  logs : Nat → List Char
  readFails : Nat → Bool
  appendFails : Nat → Bool

/-- Model of `Storage::read_logs`: `none` is the `Err` case. -/
def read_logs (st : Store) (id : Nat) : Option (List Char) :=
  if st.readFails id then none else some (st.logs id)

/-- Model of `Storage::append_log`; a failing append (whose `Result` every
monitor-loop caller discards with `let _ =`) leaves the log unchanged. -/
def append_log (st : Store) (id : Nat) (text : List Char) : Store :=
  if st.appendFails id then st
  else { st with logs := fun i => if i = id then st.logs i ++ text else st.logs i }

/-- Outcome of `StatusMonitor::get_last_log_lines`: `Ok` payload, the `Err`
propagated from `read_logs`, or a byte-slice panic. -/
inductive LinesResult where
  | ok (s : List Char)
  | err
  | panic
  deriving DecidableEq, Repr

/-- Truncation step at the end of `get_last_log_lines`: if the joined string
exceeds 100 bytes, keep the final 100 bytes behind a `...` prefix; `none`
models the panic of `&result[result.len() - 100..]` off a char boundary. -/
def truncateTail (result : List Char) : Option (List Char) :=
  if bytesLen result > 100 then
    (byteDrop (bytesLen result - 100) result).map (fun tail => "...".data ++ tail)
  else some result

/-- Model of `StatusMonitor::get_last_log_lines(storage, session_id, lines)`. -/
def get_last_log_lines (st : Store) (id : Nat) (n : Nat) : LinesResult :=
  match read_logs st id with
  | none => .err
  | some content =>
      if content = [] then .ok "Process exited without output".data
      else
        let lastLines := ((rustLines content).reverse.take n).reverse
        let result := List.intercalate [' '] lastLines
        match truncateTail result with
        | none => .panic
        | some r => .ok r

/-- Session status, `models.rs::SessionStatus`. -/
inductive SessionStatus where
  | Running
  | Stopped
  | Error (msg : List Char)
  deriving DecidableEq, Repr

/-- Session type, `models.rs::SessionType`. -/
inductive SessionType where
  | SSH
  | Kubectl
  | Socks5
  deriving DecidableEq, Repr

/-- Persisted session entity, `models.rs::Session` (fields the supervisor
reads or writes; `name`/`created_at` are never touched by process.rs and are
omitted). -/
structure Session where
  id : Nat
  session_type : SessionType
  target : List Char
  local_port : Nat
  remote_port : Option Nat
  status : SessionStatus
  pid : Option Nat
  last_started : Option Int
  additional_options : List (List Char)
  kube_context : Option (List Char)
  kube_namespace : Option (List Char)
  deriving DecidableEq, Repr

/-- Tracking-set entry, `process.rs::MonitoredSession`. -/
structure MonitoredSession where
  id : Nat
  pid : Option Nat
  started_at : Option Int
  deriving DecidableEq, Repr

/-- Cross-thread message, `process.rs::StatusUpdate`. -/
structure StatusUpdate where
  session_id : Nat
  status : SessionStatus
  pid : Option Nat
  deriving DecidableEq, Repr

/-- The 80-character `=` banner line used by every log marker. -/
def eqLine : List Char := List.replicate 80 '='

/-- Decimal rendering of a number, Rust's `{}` for `u32`/`u16`. -/
def natChars (n : Nat) : List Char := (toString n).data

/-- Marker appended by `start_session` (ends in a single newline). -/
def startedSeparator (ts : List Char) (pid : Nat) : List Char :=
  ['\n'] ++ eqLine ++ "\nSession Started: ".data ++ ts ++ " | PID: ".data ++
    natChars pid ++ ['\n'] ++ eqLine ++ ['\n']

/-- Marker appended by `stop_session`. -/
def stoppedSeparator (ts : List Char) (pid : Nat) : List Char :=
  ['\n'] ++ eqLine ++ "\nSession Stopped: ".data ++ ts ++ " | PID: ".data ++
    natChars pid ++ ['\n'] ++ eqLine ++ "\n\n".data

/-- Marker appended by the monitor's generic crash branch. -/
def crashedSeparator (ts : List Char) (pid : Nat) : List Char :=
  ['\n'] ++ eqLine ++ "\nSession Crashed/Exited: ".data ++ ts ++ " | PID: ".data ++
    natChars pid ++ ['\n'] ++ eqLine ++ "\n\n".data

/-- Marker the early-verification branch would append. -/
def failedEarlySeparator (ts : List Char) (pid : Nat) : List Char :=
  ['\n'] ++ eqLine ++ "\nSession Failed Early: ".data ++ ts ++ " | PID: ".data ++
    natChars pid ++ ['\n'] ++ eqLine ++ "\n\n".data

/-- Result of processing one tracked entry inside a monitor cycle. -/
structure StepOut where
  store : Store
  update : Option StatusUpdate
  crashed : Bool

/-- One tracked entry's treatment inside `StatusMonitor::monitor_loop`'s per
cycle `for` loop (process.rs lines 71–132); `none` models a panic escaping
from `get_last_log_lines`. `alive` is the fixed per-cycle `sys` snapshot. -/
def monitorStep (alive : Nat → Bool) (ts : List Char) (now : Int)
    (st : Store) (s : MonitoredSession) : Option StepOut :=
  match s.pid with
  | none => some ⟨st, none, false⟩
  | some pid =>
      if alive pid = false then
        match get_last_log_lines (append_log st s.id (crashedSeparator ts pid)) s.id 3 with
        | .panic => none
        | .ok m =>
            some ⟨append_log st s.id (crashedSeparator ts pid), some ⟨s.id, .Error m, none⟩, true⟩
        | .err =>
            some ⟨append_log st s.id (crashedSeparator ts pid),
              some ⟨s.id, .Error "Process terminated".data, none⟩, true⟩
      else
        match s.started_at with
        | none => some ⟨st, none, false⟩
        | some t0 =>
            if now - t0 < 15 then
              if alive pid = false then
                match get_last_log_lines (append_log st s.id (failedEarlySeparator ts pid)) s.id 3 with
                | .panic => none
                | .ok m =>
                    some ⟨append_log st s.id (failedEarlySeparator ts pid),
                      some ⟨s.id, .Error m, none⟩, true⟩
                | .err =>
                    some ⟨append_log st s.id (failedEarlySeparator ts pid),
                      some ⟨s.id, .Error "Process exited shortly after start".data, none⟩, true⟩
              else some ⟨st, none, false⟩
            else some ⟨st, none, false⟩

/-- State after a full monitor cycle: storage, the updates queued on the
channel (in emission order) and the tracking set left behind. -/
structure CycleOut where
  store : Store
  updates : List StatusUpdate
  tracked : List MonitoredSession

/-- Fold of `monitorStep` over the snapshot, accumulating queued updates and
the `crashed_sessions` id list in order. -/
def cycleGo (alive : Nat → Bool) (ts : List Char) (now : Int) :
    Store → List MonitoredSession → Option (Store × List StatusUpdate × List Nat)
  | st, [] => some (st, [], [])
  | st, s :: rest =>
      match monitorStep alive ts now st s with
      | none => none
      | some out =>
          match cycleGo alive ts now out.store rest with
          | none => none
          | some (st', ups, cr) =>
              some (st', out.update.toList ++ ups, (if out.crashed then [s.id] else []) ++ cr)

/-- One full iteration of `StatusMonitor::monitor_loop` (snapshot already
taken as `tracked`): process every entry, then under the lock retain the
non-crashed entries and drop pid-less ones (process.rs lines 134–142). -/
def monitorCycle (alive : Nat → Bool) (ts : List Char) (now : Int)
    (st : Store) (tracked : List MonitoredSession) : Option CycleOut :=
  match cycleGo alive ts now st tracked with
  | none => none
  | some (st', ups, crashed) =>
      let m1 := if crashed ≠ [] then tracked.filter (fun s => ¬ crashed.contains s.id) else tracked
      let m2 := m1.filter (fun s => s.pid.isSome)
      some ⟨st', ups, m2⟩

/-- Result of one `&mut`-mutating manager operation: post storage, post
tracking set, post session value, and whether the Rust `Result` was `Ok`
(`ok := false` is a `?` early return, with everything before it unmodified). -/
structure OpOut where
  store : Store
  tracked : List MonitoredSession
  session : Session
  ok : Bool

/-- In-place update of the FIRST tracking entry matching `id`, mirroring
`monitored.iter_mut().find(...)` in `start_session`. -/
def updateFirstMon : List MonitoredSession → Nat → Nat → Int → List MonitoredSession
  | [], _, _, _ => []
  | m :: rest, id, pid, now =>
      if m.id = id then { m with pid := some pid, started_at := some now } :: rest
      else m :: updateFirstMon rest id pid now

/-- Model of `ProcessManager::start_session` (process.rs lines 242–289).
`logOpen` is success of opening the log file, `cloneOk` of `try_clone`,
`spawn` the pid of a successfully spawned child (`none` = spawn error);
each `false`/`none` is a `?` early return before any mutation. -/
def start_session (logOpen : Bool) (cloneOk : Bool) (spawn : Option Nat)
    (ts : List Char) (now : Int) (st : Store) (tracked : List MonitoredSession)
    (s : Session) : OpOut :=
  if logOpen = false then ⟨st, tracked, s, false⟩
  else if cloneOk = false then ⟨st, tracked, s, false⟩
  else
    match spawn with
    | none => ⟨st, tracked, s, false⟩
    | some pid =>
        let s' := { s with pid := some pid, status := .Running, last_started := some now }
        let st1 := append_log st s.id (startedSeparator ts pid)
        let tracked' :=
          if tracked.any (fun m => m.id = s.id) then updateFirstMon tracked s.id pid now
          else tracked ++ [⟨s.id, some pid, some now⟩]
        ⟨st1, tracked', s', true⟩

/-- Model of `ProcessManager::stop_session` (process.rs lines 291–325).
`killResult` is the outcome of `Command::new("kill")...output()`: `Except`
error when the kill command could not be run (the `?` propagates it BEFORE
any state change), otherwise `ok` carrying the killed process's ignored
success flag. -/
def stop_session (killResult : Except Unit Bool) (ts : List Char)
    (st : Store) (tracked : List MonitoredSession) (s : Session) : OpOut :=
  match s.pid with
  | some pid =>
      match killResult with
      | .error _ => ⟨st, tracked, s, false⟩
      | .ok _ =>
          let st1 := append_log st s.id (stoppedSeparator ts pid)
          let s' := { s with status := .Stopped, pid := none }
          ⟨st1, tracked.filter (fun m => ¬ m.id = s.id), s', true⟩
  | none =>
      let s' := { s with status := .Stopped, pid := none }
      ⟨st, tracked.filter (fun m => ¬ m.id = s.id), s', true⟩

/-- Model of `ProcessManager::sync_monitored_sessions` (process.rs lines
218–228): clear the tracking set and copy id/pid/start time of EVERY given
session into it. -/
def sync_monitored_sessions (sessions : List Session) : List MonitoredSession :=
  sessions.map (fun s => ⟨s.id, s.pid, s.last_started⟩)

/-- Application of one drained `StatusUpdate` to the first session whose id
matches, setting status and pid together (process.rs lines 233–237). -/
def applyUpdateFirst : List Session → StatusUpdate → List Session
  | [], _ => []
  | s :: rest, u =>
      if s.id = u.session_id then { s with status := u.status, pid := u.pid } :: rest
      else s :: applyUpdateFirst rest u

/-- Model of `ProcessManager::poll_status_updates` applied to the list of
updates drained from the channel, in order (the returned `changed` flag is
not modelled; it feeds only the caller's save decision). -/
def poll_status_updates (sessions : List Session) (updates : List StatusUpdate) : List Session :=
  updates.foldl applyUpdateFirst sessions

/-- External command: program plus argument list, in order. -/
structure Cmd where
  program : List Char
  args : List (List Char)
  deriving DecidableEq, Repr

/-- Model of `ProcessManager::build_ssh_command` (process.rs lines 327–343). -/
def build_ssh_command (s : Session) : Cmd :=
  ⟨"ssh".data,
    ["-L".data,
     natChars s.local_port ++ ":localhost:".data ++ natChars (s.remote_port.getD 0),
     s.target,
     "-N".data] ++ s.additional_options⟩

/-- Model of `ProcessManager::build_kubectl_command` (process.rs lines 345–369). -/
def build_kubectl_command (s : Session) : Cmd :=
  ⟨"kubectl".data,
    (match s.kube_context with
     | some c => ["--context".data, c]
     | none => []) ++
    (match s.kube_namespace with
     | some ns => ["--namespace".data, ns]
     | none => []) ++
    ["port-forward".data,
     s.target,
     natChars s.local_port ++ ":".data ++ natChars (s.remote_port.getD 0)] ++
    s.additional_options⟩

/-- Model of `ProcessManager::build_socks5_command` (process.rs lines 371–383). -/
def build_socks5_command (s : Session) : Cmd :=
  ⟨"ssh".data,
    ["-D".data, natChars s.local_port, s.target, "-N".data] ++ s.additional_options⟩

/-!
Concrete fixtures used by witnesses and counterexamples.
-/

/-- Store with empty logs and fully working storage. -/
def emptyStore : Store := ⟨fun _ => [], fun _ => false, fun _ => false⟩

/-- Store whose every log read fails. -/
def readFailStore : Store := ⟨fun _ => [], fun _ => true, fun _ => false⟩

/-- Store whose every log append fails (and whose logs are empty). -/
def appendFailStore : Store := ⟨fun _ => [], fun _ => false, fun _ => true⟩

/-- A fixed formatted-timestamp value for concrete runs. -/
def tsDemo : List Char := "2024-01-01 00:00:00".data

/-- The diagnostic the crash branch derives when a session with the given
one-digit pid crashes at `tsDemo` with a previously empty log: the last 100
bytes of the joined tail of the freshly appended crash marker, behind `...`. -/
def diagCrash (pid : Nat) : List Char :=
  "... 00:00:00 | PID: ".data ++ natChars pid ++ [' '] ++ eqLine ++ [' ']

/-- A running SSH session fixture (id 1, pid 7). -/
def sshRunning : Session :=
  ⟨1, .SSH, "host1".data, 8080, some 80, .Running, some 7, some 100, [], none, none⟩

/-- A stopped session fixture (id 3, no pid, never started). -/
def stoppedSession : Session :=
  ⟨3, .SSH, "host1".data, 8080, some 80, .Stopped, none, none, [], none, none⟩

/-- Tracking set holding exactly the entry of `sshRunning`. -/
def trackedDemo : List MonitoredSession := [⟨1, some 7, some 100⟩]

/-!
Theorems settling the claims.
-/

/-- C10: refuted — diagnostic extraction is NOT total. A log holding one line
of 40 `€` characters (3 UTF-8 bytes each, 120 bytes) makes the joined tail
exceed 100 bytes, and the slice index `len − 100 = 20` falls inside a
character, so `&result[result.len() - 100..]` panics in the monitor thread. -/
theorem C10_multibyte_slice_panics :
    get_last_log_lines ⟨fun _ => List.replicate 40 '€', fun _ => false, fun _ => false⟩ 1 3
      = .panic ∧
    truncateTail (List.replicate 40 '€') = none ∧
    bytesLen (List.replicate 40 '€') = 120 ∧
    byteDrop 20 (List.replicate 40 '€') = none := by
  decide

/-- C9 counterexample: for the one-line log of 101 `é` characters (202 UTF-8
bytes, so the joined tail "exceeds 100 characters" on either reading) the
derived diagnostic is `...` followed by only 50 characters — 53 characters
long, not 103, and not the final 100 characters of the join. -/
theorem C9_counterexample :
    get_last_log_lines ⟨fun _ => List.replicate 101 'é', fun _ => false, fun _ => false⟩ 1 3
      = .ok ("...".data ++ List.replicate 50 'é') ∧
    ("...".data ++ List.replicate 50 'é').length = 53 ∧
    ¬ (("...".data ++ List.replicate 50 'é').length = 103) := by
  decide

/-- C2 counterexample: with a pid present and the kill command failing to
run, `stop_session` early-returns the error having changed nothing — the
session is still `Running` with its pid, and its tracking entry remains. -/
theorem C2_counterexample :
    (stop_session (.error ()) tsDemo emptyStore trackedDemo sshRunning).ok = false ∧
    (stop_session (.error ()) tsDemo emptyStore trackedDemo sshRunning).session.status
      = .Running ∧
    (stop_session (.error ()) tsDemo emptyStore trackedDemo sshRunning).session.pid = some 7 ∧
    (stop_session (.error ()) tsDemo emptyStore trackedDemo sshRunning).tracked
      = trackedDemo := by
  decide

/-- C4 counterexample: a tracked process found dead while its log is empty
(and the marker append fails, so the log stays empty) yields the diagnostic
"Process exited without output", not "Process terminated" — the latter is
only the fallback for a failing log READ. -/
theorem C4_counterexample :
    (monitorStep (fun _ => false) tsDemo 1000 appendFailStore ⟨1, some 7, none⟩).map
        (fun o => (o.store.logs 1, o.update, o.crashed))
      = some ([], some ⟨1, .Error "Process exited without output".data, none⟩, true) ∧
    "Process exited without output".data ≠ "Process terminated".data := by
  decide

/-- C6 counterexample: `sync_monitored_sessions` given one `Stopped` session
still inserts a tracking entry for it (with `pid := none`), so it does leave
an entry for a session that is not Running. -/
theorem C6_counterexample :
    sync_monitored_sessions [stoppedSession] = [⟨3, none, none⟩] ∧
    stoppedSession.status ≠ .Running := by
  decide

/-- Comparison definition for the early-verification analysis: `monitorStep`
with the whole early-verification branch (process.rs lines 97–129) deleted —
an entry whose process is alive in the cycle's snapshot is left alone. -/
def monitorStepNoEarly (alive : Nat → Bool) (ts : List Char) (_now : Int)
    (st : Store) (s : MonitoredSession) : Option StepOut :=
  match s.pid with
  | none => some ⟨st, none, false⟩
  | some pid =>
      if alive pid = false then
        match get_last_log_lines (append_log st s.id (crashedSeparator ts pid)) s.id 3 with
        | .panic => none
        | .ok m =>
            some ⟨append_log st s.id (crashedSeparator ts pid), some ⟨s.id, .Error m, none⟩, true⟩
        | .err =>
            some ⟨append_log st s.id (crashedSeparator ts pid),
              some ⟨s.id, .Error "Process terminated".data, none⟩, true⟩
      else some ⟨st, none, false⟩

set_option maxRecDepth 8192 in
/-- C1: refuted on the code — the "Failed Early" branch is unreachable, since
it re-checks the very same per-cycle process-table snapshot that the outer
check just found alive. `monitorStep` is pointwise equal to the variant with
the branch deleted; concretely, a session that died 5 seconds after start
(well inside the 15-second window) gets the "Session Crashed/Exited" marker,
not "Session Failed Early", and with an empty prior log the emitted update
carries the truncated marker tail, never "Process exited shortly after
start". -/
theorem C1_failed_early_branch_dead :
    (∀ (alive : Nat → Bool) (ts : List Char) (now : Int) (st : Store) (s : MonitoredSession),
        monitorStep alive ts now st s = monitorStepNoEarly alive ts now st s) ∧
    ((monitorStep (fun _ => false) tsDemo 105 emptyStore ⟨1, some 7, some 100⟩).map
        (fun o => (o.store.logs 1, o.update, o.crashed))
      = some (crashedSeparator tsDemo 7, some ⟨1, .Error (diagCrash 7), none⟩, true)) ∧
    ("Session Crashed/Exited".data <:+: crashedSeparator tsDemo 7) ∧
    ¬ ("Session Failed Early".data <:+: crashedSeparator tsDemo 7) ∧
    diagCrash 7 ≠ "Process exited shortly after start".data := by
  refine ⟨?_, by decide, by decide, by decide, by decide⟩
  intro alive ts now st s
  unfold monitorStep monitorStepNoEarly
  cases s.pid with
  | none => rfl
  | some pid =>
    cases h : alive pid with
    | false => simp [h]
    | true =>
      simp only [h]
      cases s.started_at with
      | none => simp
      | some t0 => by_cases h15 : now - t0 < 15 <;> simp [h15, h]

/-- C2 amended: when the kill command itself cannot be run, `stop_session`
early-returns the error with NOTHING changed (session, tracking set, storage
all untouched); the Stopped/pid-cleared/untracked transition happens exactly
when the kill command runs (regardless of the signal's own success, whose
status is ignored) or when no pid is present. -/
theorem C2_stop_session_best_effort :
    (∀ (e : Unit) (ts : List Char) (st : Store) (tracked : List MonitoredSession)
        (s : Session) (pid : Nat), s.pid = some pid →
        stop_session (.error e) ts st tracked s = ⟨st, tracked, s, false⟩) ∧
    (∀ (b : Bool) (ts : List Char) (st : Store) (tracked : List MonitoredSession) (s : Session),
        (stop_session (.ok b) ts st tracked s).session.status = .Stopped ∧
        (stop_session (.ok b) ts st tracked s).session.pid = none ∧
        (stop_session (.ok b) ts st tracked s).ok = true ∧
        ∀ m ∈ (stop_session (.ok b) ts st tracked s).tracked, m.id ≠ s.id ∧ m ∈ tracked) ∧
    (∀ (kr : Except Unit Bool) (ts : List Char) (st : Store)
        (tracked : List MonitoredSession) (s : Session), s.pid = none →
        (stop_session kr ts st tracked s).session.status = .Stopped ∧
        (stop_session kr ts st tracked s).session.pid = none ∧
        (stop_session kr ts st tracked s).ok = true) := by
  refine ⟨?_, ?_, ?_⟩
  · intro e ts st tracked s pid h
    simp [stop_session, h]
  · intro b ts st tracked s
    cases hp : s.pid with
    | none =>
      simp only [stop_session, hp, List.mem_filter]
      exact ⟨trivial, trivial, trivial, fun m hm => by simp at hm; exact ⟨hm.2, hm.1⟩⟩
    | some pid =>
      simp only [stop_session, hp, List.mem_filter]
      exact ⟨trivial, trivial, trivial, fun m hm => by simp at hm; exact ⟨hm.2, hm.1⟩⟩
  · intro kr ts st tracked s h
    simp [stop_session, h]

/-- C2 witness: concrete instances — a failed kill leaves the running fixture
session fully intact, a successful kill (or a pid-less session even with a
failing kill) ends Stopped with the pid cleared. -/
theorem C2_stop_session_best_effort_witness :
    stop_session (.error ()) tsDemo emptyStore trackedDemo sshRunning
      = ⟨emptyStore, trackedDemo, sshRunning, false⟩ ∧
    (stop_session (.ok true) tsDemo emptyStore trackedDemo sshRunning).session.status
      = .Stopped ∧
    (stop_session (.ok true) tsDemo emptyStore trackedDemo sshRunning).session.pid = none ∧
    (stop_session (.error ()) tsDemo emptyStore [] stoppedSession).session.status = .Stopped :=
  ⟨C2_stop_session_best_effort.1 () tsDemo emptyStore trackedDemo sshRunning 7 rfl,
   (C2_stop_session_best_effort.2.1 true tsDemo emptyStore trackedDemo sshRunning).1,
   (C2_stop_session_best_effort.2.1 true tsDemo emptyStore trackedDemo sshRunning).2.1,
   (C2_stop_session_best_effort.2.2 (.error ()) tsDemo emptyStore [] stoppedSession rfl).1⟩

/-- C7: confirmed — every fallible step of `start_session` (log-file open,
handle clone, spawn) precedes every mutation, so on any failure the call
returns the error with session, tracking set and storage exactly as given;
and it fails precisely when one of those steps fails. -/
theorem C7_start_session_no_partial_mutation :
    (∀ (logOpen cloneOk : Bool) (spawn : Option Nat) (ts : List Char) (now : Int)
        (st : Store) (tracked : List MonitoredSession) (s : Session),
        (start_session logOpen cloneOk spawn ts now st tracked s).ok = false →
        start_session logOpen cloneOk spawn ts now st tracked s = ⟨st, tracked, s, false⟩) ∧
    (∀ (logOpen cloneOk : Bool) (spawn : Option Nat) (ts : List Char) (now : Int)
        (st : Store) (tracked : List MonitoredSession) (s : Session),
        (start_session logOpen cloneOk spawn ts now st tracked s).ok = false ↔
          (logOpen = false ∨ cloneOk = false ∨ spawn = none)) := by
  constructor
  · intro logOpen cloneOk spawn ts now st tracked s h
    cases logOpen <;> cases cloneOk <;> cases spawn <;> simp_all [start_session]
  · intro logOpen cloneOk spawn ts now st tracked s
    cases logOpen <;> cases cloneOk <;> cases spawn <;> simp [start_session]

/-- C7 witness: a concrete failing start (log file did not open) leaves the
running fixture state byte-for-byte unchanged. -/
theorem C7_start_session_no_partial_mutation_witness :
    start_session false true (some 9) tsDemo 100 emptyStore trackedDemo sshRunning
      = ⟨emptyStore, trackedDemo, sshRunning, false⟩ :=
  C7_start_session_no_partial_mutation.1 false true (some 9) tsDemo 100 emptyStore
    trackedDemo sshRunning rfl

/-- Command shape the spec prescribes for SSH sessions: a local-forward flag
binding the local port to `localhost:` plus the remote port, the target, a
non-interactive flag, then the extra options in the order given. -/
def sshCommandSpec (localPort remotePort : Nat) (target : List Char)
    (extras : List (List Char)) : Cmd :=
  ⟨"ssh".data,
    ["-L".data, natChars localPort ++ ":localhost:".data ++ natChars remotePort,
     target, "-N".data] ++ extras⟩

/-- Command shape the spec prescribes for Kubectl sessions: optional
`--context`, optional `--namespace`, then `port-forward target local:remote`,
then the extra options. -/
def kubectlCommandSpec (ctx ns : Option (List Char)) (target : List Char)
    (localPort remotePort : Nat) (extras : List (List Char)) : Cmd :=
  ⟨"kubectl".data,
    (ctx.elim [] (fun c => ["--context".data, c])) ++
    (ns.elim [] (fun n => ["--namespace".data, n])) ++
    ["port-forward".data, target, natChars localPort ++ [':'] ++ natChars remotePort] ++
    extras⟩

/-- Command shape the spec prescribes for Socks5 sessions: a dynamic-forward
flag on the local port, the target, a non-interactive flag, then extras. -/
def socks5CommandSpec (localPort : Nat) (target : List Char)
    (extras : List (List Char)) : Cmd :=
  ⟨"ssh".data, ["-D".data, natChars localPort, target, "-N".data] ++ extras⟩

/-- C8: confirmed — for every session carrying a remote port, the three
builders produce exactly the commands the spec prescribes (the remote port is
read with `unwrap_or(0)`, which under the hypothesis is the given port; the
Socks5 builder never reads it). -/
theorem C8_command_construction :
    ∀ (s : Session) (r : Nat), s.remote_port = some r →
      build_ssh_command s = sshCommandSpec s.local_port r s.target s.additional_options ∧
      build_kubectl_command s
        = kubectlCommandSpec s.kube_context s.kube_namespace s.target s.local_port r
            s.additional_options ∧
      build_socks5_command s = socks5CommandSpec s.local_port s.target s.additional_options := by
  intro s r h
  refine ⟨?_, ?_, rfl⟩
  · simp [build_ssh_command, sshCommandSpec, h]
  · cases hc : s.kube_context <;> cases hn : s.kube_namespace <;>
      simp [build_kubectl_command, kubectlCommandSpec, h, hc, hn]

/-- C8 witness: the fixture SSH session (local 8080, remote 80, host1) is
mapped to exactly the prescribed SSH, kubectl and SOCKS5 command lines. -/
theorem C8_command_construction_witness :
    build_ssh_command sshRunning
      = sshCommandSpec sshRunning.local_port 80 sshRunning.target
          sshRunning.additional_options ∧
    build_kubectl_command sshRunning
      = kubectlCommandSpec sshRunning.kube_context sshRunning.kube_namespace
          sshRunning.target sshRunning.local_port 80 sshRunning.additional_options ∧
    build_socks5_command sshRunning
      = socks5CommandSpec sshRunning.local_port sshRunning.target
          sshRunning.additional_options :=
  C8_command_construction sshRunning 80 rfl

@[simp]
lemma bytesLen_nil : bytesLen [] = 0 := rfl

@[simp]
lemma bytesLen_cons (c : Char) (l : List Char) :
    bytesLen (c :: l) = charBytes c + bytesLen l := by
  simp [bytesLen]

lemma bytesLen_append (a b : List Char) :
    bytesLen (a ++ b) = bytesLen a + bytesLen b := by
  simp [bytesLen]

lemma byteDrop_isSuffix (k : Nat) (l : List Char) :
    ∀ t, byteDrop k l = some t → t <:+ l := by
  induction l generalizing k with
  | nil =>
    intro t h
    cases k with
    | zero => simp only [byteDrop, Option.some.injEq] at h; exact h ▸ List.suffix_rfl
    | succ k => simp [byteDrop] at h
  | cons c rest ih =>
    intro t h
    cases k with
    | zero => simp only [byteDrop, Option.some.injEq] at h; exact h ▸ List.suffix_rfl
    | succ k =>
      simp only [byteDrop] at h
      split at h
      · exact (ih _ _ h).trans (List.suffix_cons c rest)
      · exact absurd h (by simp)

lemma byteDrop_bytesLen (k : Nat) (l : List Char) :
    ∀ t, byteDrop k l = some t → bytesLen t + k = bytesLen l := by
  induction l generalizing k with
  | nil =>
    intro t h
    cases k with
    | zero => simp only [byteDrop, Option.some.injEq] at h; subst h; rfl
    | succ k => simp [byteDrop] at h
  | cons c rest ih =>
    intro t h
    cases k with
    | zero => simp only [byteDrop, Option.some.injEq] at h; subst h; rfl
    | succ k =>
      simp only [byteDrop] at h
      split at h
      · have := ih _ _ h
        rename_i hle
        simp only [bytesLen_cons]
        omega
      · exact absurd h (by simp)

/-- C9 amended: the truncation works in UTF-8 BYTES, not characters — when
the joined tail exceeds 100 bytes and the cut `len − 100` lands on a
character boundary, the diagnostic is `...` followed by the final 100 bytes
(a character-aligned suffix of the join), 103 bytes in total; at most 100
bytes the join is returned unchanged. ("103 characters" holds only for
all-ASCII joins, and off-boundary cuts panic instead — see the
counterexample and C10.) -/
theorem C9_truncation_byte_level :
    ∀ (result tail : List Char),
      (¬ bytesLen result > 100 → truncateTail result = some result) ∧
      (bytesLen result > 100 → byteDrop (bytesLen result - 100) result = some tail →
        truncateTail result = some ("...".data ++ tail) ∧
        bytesLen ("...".data ++ tail) = 103 ∧
        tail <:+ result ∧ bytesLen tail = 100) := by
  intro result tail
  constructor
  · intro h
    simp [truncateTail, h]
  · intro hgt hdrop
    have hs := byteDrop_isSuffix _ _ _ hdrop
    have hlen := byteDrop_bytesLen _ _ _ hdrop
    have h100 : bytesLen tail = 100 := by omega
    refine ⟨?_, ?_, hs, h100⟩
    · simp [truncateTail, hgt, hdrop]
    · rw [bytesLen_append, h100]
      decide

set_option maxRecDepth 8192 in
/-- C9 witness: a 134-byte ASCII join is truncated to `...` plus its final
100 bytes, 103 bytes long and a suffix of the join. -/
theorem C9_truncation_byte_level_witness :
    truncateTail (List.replicate 134 'a') = some ("...".data ++ List.replicate 100 'a') ∧
    bytesLen ("...".data ++ List.replicate 100 'a') = 103 ∧
    List.replicate 100 'a' <:+ List.replicate 134 'a' ∧
    bytesLen (List.replicate 100 'a') = 100 :=
  (C9_truncation_byte_level (List.replicate 134 'a') (List.replicate 100 'a')).2
    (by decide) (by decide)

lemma append_log_readFails (st : Store) (id : Nat) (t : List Char) :
    (append_log st id t).readFails = st.readFails := by
  unfold append_log
  split <;> rfl

lemma monitorStep_update_shape (alive : Nat → Bool) (ts : List Char) (now : Int)
    (st : Store) (s : MonitoredSession) (out : StepOut) (u : StatusUpdate)
    (h : monitorStep alive ts now st s = some out) (hu : out.update = some u) :
    out.crashed = true ∧ u.session_id = s.id ∧ u.pid = none ∧
      ∃ m, u.status = .Error m := by
  unfold monitorStep at h
  split at h
  · injection h with h
    subst h
    simp at hu
  · split at h
    · split at h
      · simp at h
      · injection h with h
        subst h
        injection hu with hu
        subst hu
        exact ⟨rfl, rfl, rfl, _, rfl⟩
      · injection h with h
        subst h
        injection hu with hu
        subst hu
        exact ⟨rfl, rfl, rfl, _, rfl⟩
    · split at h
      · injection h with h
        subst h
        simp at hu
      · split at h
        · injection h with h
          subst h
          simp at hu
        · injection h with h
          subst h
          simp at hu

lemma cycleGo_updates (alive : Nat → Bool) (ts : List Char) (now : Int) :
    ∀ (tracked : List MonitoredSession) (st st' : Store) (ups : List StatusUpdate)
      (cr : List Nat), cycleGo alive ts now st tracked = some (st', ups, cr) →
      ∀ u ∈ ups, u.session_id ∈ cr ∧ u.session_id ∈ tracked.map MonitoredSession.id ∧
        u.pid = none ∧ ∃ m, u.status = .Error m := by
  intro tracked
  induction tracked with
  | nil =>
    intro st st' ups cr h u hu
    simp only [cycleGo, Option.some.injEq, Prod.mk.injEq] at h
    obtain ⟨-, h2, -⟩ := h
    subst h2
    simp at hu
  | cons s rest ih =>
    intro st st' ups cr h u hu
    simp only [cycleGo] at h
    cases hstep : monitorStep alive ts now st s with
    | none => simp [hstep] at h
    | some out =>
      simp only [hstep] at h
      cases hrest : cycleGo alive ts now out.store rest with
      | none => simp [hrest] at h
      | some trip =>
        obtain ⟨st2, ups2, cr2⟩ := trip
        simp only [hrest, Option.some.injEq, Prod.mk.injEq] at h
        obtain ⟨-, h2, h3⟩ := h
        subst h2
        subst h3
        rcases List.mem_append.1 hu with hhead | htail
        · have hupd : out.update = some u := by
            cases houtu : out.update with
            | none => rw [houtu] at hhead; simp at hhead
            | some u0 =>
              rw [houtu] at hhead
              simp only [Option.toList_some, List.mem_singleton] at hhead
              subst hhead
              rfl
          obtain ⟨hcr, hid, hpid, hstat⟩ :=
            monitorStep_update_shape alive ts now st s out u hstep hupd
          rw [hcr]
          refine ⟨?_, ?_, hpid, hstat⟩
          · simp [hid]
          · simp [hid]
        · obtain ⟨hcr, hids, hpid, hstat⟩ := ih out.store st2 ups2 cr2 hrest u htail
          refine ⟨?_, ?_, hpid, hstat⟩
          · rcases List.mem_append.2 (Or.inr hcr) with h'
            exact h'
          · simp only [List.map_cons, List.mem_cons]
            exact Or.inr hids

lemma monitorCycle_spec (alive : Nat → Bool) (ts : List Char) (now : Int)
    (st : Store) (tracked : List MonitoredSession) (out : CycleOut)
    (h : monitorCycle alive ts now st tracked = some out) :
    (∀ u ∈ out.updates, u.session_id ∈ tracked.map MonitoredSession.id ∧ u.pid = none ∧
        (∃ m, u.status = .Error m) ∧ ∀ mo ∈ out.tracked, mo.id ≠ u.session_id) ∧
    (∀ mo ∈ out.tracked, mo.pid.isSome = true ∧ mo ∈ tracked) := by
  unfold monitorCycle at h
  cases hgo : cycleGo alive ts now st tracked with
  | none => simp [hgo] at h
  | some trip =>
    obtain ⟨st', ups, cr⟩ := trip
    simp only [hgo, Option.some.injEq] at h
    subst h
    have hmem2 : ∀ mo ∈ ((if cr ≠ [] then tracked.filter (fun s => ¬ cr.contains s.id)
        else tracked).filter (fun s => s.pid.isSome)),
        mo.pid.isSome = true ∧ mo ∈ tracked ∧ (cr ≠ [] → mo.id ∉ cr) := by
      intro mo hmo
      rw [List.mem_filter] at hmo
      obtain ⟨hmo1, hmo2⟩ := hmo
      refine ⟨hmo2, ?_, ?_⟩
      · by_cases hcr : cr = []
        · simpa [hcr] using hmo1
        · rw [if_pos hcr] at hmo1
          exact (List.mem_filter.1 hmo1).1
      · intro hcr
        rw [if_pos hcr] at hmo1
        have := (List.mem_filter.1 hmo1).2
        simpa using this
    constructor
    · intro u hu
      obtain ⟨hcr, hids, hpid, hstat⟩ := cycleGo_updates alive ts now tracked st st' ups cr hgo u hu
      refine ⟨hids, hpid, hstat, ?_⟩
      intro mo hmo heq
      have hne : cr ≠ [] := List.ne_nil_of_mem hcr
      have := (hmem2 mo hmo).2.2 hne
      rw [heq] at this
      exact this hcr
    · intro mo hmo
      exact ⟨(hmem2 mo hmo).1, (hmem2 mo hmo).2.1⟩

/-- Registry invariant of the spec: a session is `Running` iff it has a pid. -/
def SessionInv (s : Session) : Prop := s.status = .Running ↔ s.pid.isSome = true

/-- The corresponding consistency of one update message: it reports `Running`
iff it carries a pid. -/
def updConsistent (u : StatusUpdate) : Prop := u.status = .Running ↔ u.pid.isSome = true

lemma applyUpdateFirst_inv (u : StatusUpdate) (hcons : updConsistent u) :
    ∀ (sessions : List Session), (∀ s ∈ sessions, SessionInv s) →
      ∀ s ∈ applyUpdateFirst sessions u, SessionInv s := by
  intro sessions
  induction sessions with
  | nil => intro _ s hs; simp [applyUpdateFirst] at hs
  | cons hd tl ih =>
    intro hall s hs
    simp only [applyUpdateFirst] at hs
    by_cases hc : hd.id = u.session_id
    · rw [if_pos hc] at hs
      rcases List.mem_cons.1 hs with h1 | h1
      · subst h1
        exact hcons
      · exact hall s (List.mem_cons_of_mem hd h1)
    · rw [if_neg hc] at hs
      rcases List.mem_cons.1 hs with h1 | h1
      · rw [h1]
        exact hall hd (List.mem_cons_self hd tl)
      · exact ih (fun x hx => hall x (List.mem_cons_of_mem hd hx)) s h1

lemma poll_updates_inv :
    ∀ (updates : List StatusUpdate) (sessions : List Session),
      (∀ u ∈ updates, updConsistent u) → (∀ s ∈ sessions, SessionInv s) →
      ∀ s ∈ poll_status_updates sessions updates, SessionInv s := by
  intro updates
  induction updates with
  | nil =>
    intro sessions _ hall s hs
    exact hall s hs
  | cons u rest ih =>
    intro sessions hcons hall s hs
    exact ih (applyUpdateFirst sessions u)
      (fun v hv => hcons v (List.mem_cons_of_mem u hv))
      (applyUpdateFirst_inv u (hcons u (List.mem_cons_self u rest)) sessions hall) s hs

lemma updateFirstMon_mem (id pid : Nat) (now : Int) :
    ∀ (tracked : List MonitoredSession), (∃ m ∈ tracked, m.id = id) →
      ∃ m ∈ updateFirstMon tracked id pid now, m.id = id ∧ m.pid = some pid := by
  intro tracked
  induction tracked with
  | nil => rintro ⟨m, hm, -⟩; simp at hm
  | cons hd tl ih =>
    rintro ⟨m0, hm0, hid0⟩
    unfold updateFirstMon
    by_cases hhd : hd.id = id
    · rw [if_pos hhd]
      exact ⟨_, List.mem_cons_self _ _, hhd, rfl⟩
    · rw [if_neg hhd]
      rcases List.mem_cons.1 hm0 with h1 | h1
      · exact absurd (h1 ▸ hid0) hhd
      · obtain ⟨m, hm, hprops⟩ := ih ⟨m0, h1, hid0⟩
        exact ⟨m, List.mem_cons_of_mem hd hm, hprops⟩

/-- C3: confirmed — `status == Running ⇔ pid.is_some()` is preserved by every
supervisor operation: a successful start sets `Running` and the pid together,
a failed start leaves the session as it was, stopping (in every branch)
leaves `Stopped`/`None` or the untouched session, draining applies status
and pid of each update together — and every update a monitor cycle emits is
an `Error`/pid-`None` message, hence consistent. -/
theorem C3_running_iff_pid_preserved :
    (∀ (logOpen cloneOk : Bool) (spawn : Option Nat) (ts : List Char) (now : Int)
        (st : Store) (tracked : List MonitoredSession) (s : Session), SessionInv s →
        SessionInv (start_session logOpen cloneOk spawn ts now st tracked s).session) ∧
    (∀ (kr : Except Unit Bool) (ts : List Char) (st : Store)
        (tracked : List MonitoredSession) (s : Session), SessionInv s →
        SessionInv (stop_session kr ts st tracked s).session) ∧
    (∀ (updates : List StatusUpdate) (sessions : List Session),
        (∀ u ∈ updates, updConsistent u) → (∀ s ∈ sessions, SessionInv s) →
        ∀ s ∈ poll_status_updates sessions updates, SessionInv s) ∧
    (∀ (alive : Nat → Bool) (ts : List Char) (now : Int) (st : Store)
        (tracked : List MonitoredSession) (ups : List StatusUpdate) (u : StatusUpdate),
        (monitorCycle alive ts now st tracked).map CycleOut.updates = some ups →
        u ∈ ups → updConsistent u) := by
  refine ⟨?_, ?_, poll_updates_inv, ?_⟩
  · intro logOpen cloneOk spawn ts now st tracked s hinv
    cases logOpen with
    | false => exact hinv
    | true =>
      cases cloneOk with
      | false => exact hinv
      | true =>
        cases spawn with
        | none => exact hinv
        | some pid => simp [start_session, SessionInv]
  · intro kr ts st tracked s hinv
    cases hp : s.pid with
    | none => simp [stop_session, hp, SessionInv]
    | some pid =>
      cases kr with
      | error e => simpa [stop_session, hp] using hinv
      | ok b => simp [stop_session, hp, SessionInv]
  · intro alive ts now st tracked ups u hmap hu
    cases hcy : monitorCycle alive ts now st tracked with
    | none => rw [hcy] at hmap; simp at hmap
    | some out =>
      rw [hcy] at hmap
      simp only [Option.map_some', Option.some.injEq] at hmap
      subst hmap
      obtain ⟨-, hpid, ⟨m, hstat⟩, -⟩ := (monitorCycle_spec alive ts now st tracked out hcy).1 u hu
      unfold updConsistent
      rw [hstat, hpid]
      simp

set_option maxRecDepth 16384 in
/-- C3 witness: concrete instances — starting the stopped fixture yields a
consistent session, stopping the running fixture yields a consistent
session, and the update the crash cycle on the fixture tracking set emits is
consistent. -/
theorem C3_running_iff_pid_preserved_witness :
    SessionInv (start_session true true (some 9) tsDemo 100 emptyStore [] stoppedSession).session ∧
    SessionInv (stop_session (.ok true) tsDemo emptyStore trackedDemo sshRunning).session ∧
    updConsistent ⟨1, .Error (diagCrash 7), none⟩ :=
  ⟨C3_running_iff_pid_preserved.1 true true (some 9) tsDemo 100 emptyStore [] stoppedSession
      (by simp [SessionInv, stoppedSession]),
   C3_running_iff_pid_preserved.2.1 (.ok true) tsDemo emptyStore trackedDemo sshRunning
      (by simp [SessionInv, sshRunning]),
   C3_running_iff_pid_preserved.2.2.2 (fun _ => false) tsDemo 105 emptyStore trackedDemo
      [⟨1, .Error (diagCrash 7), none⟩] ⟨1, .Error (diagCrash 7), none⟩
      (by decide) (by decide)⟩

/-- C4 amended: the fixed diagnostic strings come from the storage interface,
not from log emptiness as claimed — "Process terminated" is emitted exactly
when READING the log fails; an empty log read yields "Process exited without
output"; in the typical crash the just-appended Crashed/Exited marker makes
the log non-empty, so the diagnostic is its truncated tail. The crash update
always has an `Error` status with `pid := None`, and the crashed id is absent
from the tracking set the cycle leaves behind. -/
theorem C4_crash_diagnostic_sources :
    (∀ (alive : Nat → Bool) (ts : List Char) (now : Int) (st : Store)
        (s : MonitoredSession) (pid : Nat),
        s.pid = some pid → alive pid = false → st.readFails s.id = true →
        monitorStep alive ts now st s
          = some ⟨append_log st s.id (crashedSeparator ts pid),
              some ⟨s.id, .Error "Process terminated".data, none⟩, true⟩) ∧
    (∀ (alive : Nat → Bool) (ts : List Char) (now : Int) (st : Store)
        (s : MonitoredSession) (pid : Nat),
        s.pid = some pid → alive pid = false → st.readFails s.id = false →
        (append_log st s.id (crashedSeparator ts pid)).logs s.id = [] →
        monitorStep alive ts now st s
          = some ⟨append_log st s.id (crashedSeparator ts pid),
              some ⟨s.id, .Error "Process exited without output".data, none⟩, true⟩) ∧
    (∀ (alive : Nat → Bool) (ts : List Char) (now : Int) (st : Store)
        (tracked : List MonitoredSession) (ups : List StatusUpdate)
        (tr : List MonitoredSession) (u : StatusUpdate),
        (monitorCycle alive ts now st tracked).map CycleOut.updates = some ups →
        (monitorCycle alive ts now st tracked).map CycleOut.tracked = some tr →
        u ∈ ups → u.pid = none ∧ (∃ m, u.status = .Error m) ∧
          u.session_id ∉ tr.map MonitoredSession.id) := by
  refine ⟨?_, ?_, ?_⟩
  · intro alive ts now st s pid hpid halive hread
    have hgll : get_last_log_lines (append_log st s.id (crashedSeparator ts pid)) s.id 3
        = .err := by
      unfold get_last_log_lines read_logs
      rw [append_log_readFails]
      simp [hread]
    simp [monitorStep, hpid, halive, hgll]
  · intro alive ts now st s pid hpid halive hread hlogs
    have hgll : get_last_log_lines (append_log st s.id (crashedSeparator ts pid)) s.id 3
        = .ok "Process exited without output".data := by
      unfold get_last_log_lines read_logs
      rw [append_log_readFails]
      simp [hread, hlogs]
    simp [monitorStep, hpid, halive, hgll]
  · intro alive ts now st tracked ups tr u hups htr hu
    cases hcy : monitorCycle alive ts now st tracked with
    | none => rw [hcy] at hups; simp at hups
    | some out =>
      rw [hcy] at hups htr
      simp only [Option.map_some', Option.some.injEq] at hups htr
      subst hups
      subst htr
      obtain ⟨-, hpid, hstat, hmo⟩ := (monitorCycle_spec alive ts now st tracked out hcy).1 u hu
      refine ⟨hpid, hstat, ?_⟩
      intro hmem
      obtain ⟨mo, hmo2, hid⟩ := List.mem_map.1 hmem
      exact hmo mo hmo2 hid

/-- C4 witness: a crash whose log READ fails yields "Process terminated"; a
crash whose log read succeeds but is empty (here: the marker append failed)
yields "Process exited without output". -/
theorem C4_crash_diagnostic_sources_witness :
    monitorStep (fun _ => false) tsDemo 1000 readFailStore ⟨1, some 7, none⟩
      = some ⟨append_log readFailStore 1 (crashedSeparator tsDemo 7),
          some ⟨1, .Error "Process terminated".data, none⟩, true⟩ ∧
    monitorStep (fun _ => false) tsDemo 1000 appendFailStore ⟨1, some 7, none⟩
      = some ⟨append_log appendFailStore 1 (crashedSeparator tsDemo 7),
          some ⟨1, .Error "Process exited without output".data, none⟩, true⟩ :=
  ⟨C4_crash_diagnostic_sources.1 (fun _ => false) tsDemo 1000 readFailStore
      ⟨1, some 7, none⟩ 7 rfl rfl rfl,
   C4_crash_diagnostic_sources.2.1 (fun _ => false) tsDemo 1000 appendFailStore
      ⟨1, some 7, none⟩ 7 rfl rfl rfl rfl⟩

/-- C5: confirmed (as a sequential two-cycle property) — every update a cycle
emits is for an id that the same cycle removes from the tracking set, and a
following cycle run on that tracking set can only emit updates for ids still
tracked, so it emits nothing further for the crashed id: at most one crash
update per detected crash. -/
theorem C5_at_most_one_crash_update :
    ∀ (alive : Nat → Bool) (ts : List Char) (now : Int) (st : Store)
      (tracked : List MonitoredSession) (ups : List StatusUpdate)
      (tr : List MonitoredSession) (u : StatusUpdate)
      (alive2 : Nat → Bool) (ts2 : List Char) (now2 : Int) (st2 : Store)
      (ups2 : List StatusUpdate) (u2 : StatusUpdate),
      (monitorCycle alive ts now st tracked).map CycleOut.updates = some ups →
      (monitorCycle alive ts now st tracked).map CycleOut.tracked = some tr →
      u ∈ ups →
      (monitorCycle alive2 ts2 now2 st2 tr).map CycleOut.updates = some ups2 →
      u2 ∈ ups2 →
      u.session_id ∉ tr.map MonitoredSession.id ∧ u2.session_id ≠ u.session_id := by
  intro alive ts now st tracked ups tr u alive2 ts2 now2 st2 ups2 u2 h1 h2 hu h3 hu2
  cases hcy : monitorCycle alive ts now st tracked with
  | none => rw [hcy] at h1; simp at h1
  | some out =>
    rw [hcy] at h1 h2
    simp only [Option.map_some', Option.some.injEq] at h1 h2
    subst h1
    subst h2
    have hspec := (monitorCycle_spec alive ts now st tracked out hcy).1 u hu
    have hnotin : u.session_id ∉ out.tracked.map MonitoredSession.id := by
      intro hmem
      obtain ⟨mo, hmo, hid⟩ := List.mem_map.1 hmem
      exact hspec.2.2.2 mo hmo hid
    refine ⟨hnotin, ?_⟩
    cases hcy2 : monitorCycle alive2 ts2 now2 st2 out.tracked with
    | none => rw [hcy2] at h3; simp at h3
    | some out2 =>
      rw [hcy2] at h3
      simp only [Option.map_some', Option.some.injEq] at h3
      subst h3
      have hids2 := ((monitorCycle_spec alive2 ts2 now2 st2 out.tracked out2 hcy2).1 u2 hu2).1
      intro heq
      rw [heq] at hids2
      exact hnotin hids2

/-- Two tracked entries: id 1 with pid 7 (in its start window), id 2 with
pid 8 (no recorded start). -/
def trackedTwo : List MonitoredSession := [⟨1, some 7, some 100⟩, ⟨2, some 8, none⟩]

/-- Process table in which only pid 7 has died. -/
def alive7dead : Nat → Bool := fun p => p != 7

set_option maxRecDepth 16384 in
/-- C5 witness: a concrete two-cycle run — cycle one crashes session 1 and
leaves only session 2 tracked; cycle two (everything now dead) emits only an
update for session 2, none for session 1. -/
theorem C5_at_most_one_crash_update_witness :
    (1 : Nat) ∉ ([⟨2, some 8, none⟩] : List MonitoredSession).map MonitoredSession.id ∧
    (2 : Nat) ≠ 1 :=
  C5_at_most_one_crash_update alive7dead tsDemo 105 emptyStore trackedTwo
    [⟨1, .Error (diagCrash 7), none⟩] [⟨2, some 8, none⟩]
    ⟨1, .Error (diagCrash 7), none⟩ (fun _ => false) tsDemo 200 emptyStore
    [⟨2, .Error (diagCrash 8), none⟩] ⟨2, .Error (diagCrash 8), none⟩
    (by decide) (by decide) (by decide) (by decide) (by decide)

/-- C6 amended: the tracking-set writers behave as follows — `start_session`
upserts an entry carrying the new pid for the started session, a completed
`stop_session` removes exactly that session's entries, a monitor cycle only
removes (crashed ids and pid-less entries, so each surviving entry has a
pid and was tracked before) — but `sync_monitored_sessions` copies EVERY
given session, Running or not, so immediately after a sync the set may hold
entries (with `pid := none`) for sessions that are not Running, until the
next monitor cycle prunes them. -/
theorem C6_tracking_entries_vs_running :
    (∀ (ss : List Session),
        (sync_monitored_sessions ss).map MonitoredSession.id = ss.map Session.id) ∧
    (∀ (alive : Nat → Bool) (ts : List Char) (now : Int) (st : Store)
        (tracked tr : List MonitoredSession) (m : MonitoredSession),
        (monitorCycle alive ts now st tracked).map CycleOut.tracked = some tr →
        m ∈ tr → m.pid.isSome = true ∧ m ∈ tracked) ∧
    (∀ (b : Bool) (ts : List Char) (st : Store) (tracked : List MonitoredSession)
        (s : Session) (m : MonitoredSession),
        m ∈ (stop_session (.ok b) ts st tracked s).tracked → m.id ≠ s.id ∧ m ∈ tracked) ∧
    (∀ (pid : Nat) (ts : List Char) (now : Int) (st : Store)
        (tracked : List MonitoredSession) (s : Session),
        ∃ m ∈ (start_session true true (some pid) ts now st tracked s).tracked,
          m.id = s.id ∧ m.pid = some pid) := by
  refine ⟨?_, ?_, ?_, ?_⟩
  · intro ss
    simp [sync_monitored_sessions, List.map_map, Function.comp]
  · intro alive ts now st tracked tr m htr hm
    cases hcy : monitorCycle alive ts now st tracked with
    | none => rw [hcy] at htr; simp at htr
    | some out =>
      rw [hcy] at htr
      simp only [Option.map_some', Option.some.injEq] at htr
      subst htr
      exact (monitorCycle_spec alive ts now st tracked out hcy).2 m hm
  · intro b ts st tracked s m hm
    cases hp : s.pid with
    | some pid =>
      simp only [stop_session, hp] at hm
      rw [List.mem_filter] at hm
      exact ⟨by simpa using hm.2, hm.1⟩
    | none =>
      simp only [stop_session, hp] at hm
      rw [List.mem_filter] at hm
      exact ⟨by simpa using hm.2, hm.1⟩
  · intro pid ts now st tracked s
    cases hany : tracked.any (fun m => decide (m.id = s.id)) with
    | true =>
      obtain ⟨m0, hm0, hdec⟩ := List.any_eq_true.1 hany
      obtain ⟨m, hm, hprops⟩ :=
        updateFirstMon_mem s.id pid now tracked ⟨m0, hm0, of_decide_eq_true hdec⟩
      refine ⟨m, ?_, hprops⟩
      simpa [start_session, hany] using hm
    | false =>
      refine ⟨⟨s.id, some pid, some now⟩, ?_, rfl, rfl⟩
      simp [start_session, hany]

set_option maxRecDepth 16384 in
/-- C6 witness: concrete instances — the entry surviving the fixture crash
cycle has a pid and was tracked before, and the entry surviving a concrete
stop is not the stopped session's and was tracked before. -/
theorem C6_tracking_entries_vs_running_witness :
    ((⟨2, some 8, none⟩ : MonitoredSession).pid.isSome = true ∧
      (⟨2, some 8, none⟩ : MonitoredSession) ∈ trackedTwo) ∧
    ((⟨2, some 8, none⟩ : MonitoredSession).id ≠ sshRunning.id ∧
      (⟨2, some 8, none⟩ : MonitoredSession) ∈ trackedTwo) :=
  ⟨C6_tracking_entries_vs_running.2.1 alive7dead tsDemo 105 emptyStore trackedTwo
      [⟨2, some 8, none⟩] ⟨2, some 8, none⟩ (by decide) (by decide),
   C6_tracking_entries_vs_running.2.2.1 true tsDemo emptyStore trackedTwo sshRunning
      ⟨2, some 8, none⟩ (by decide)⟩

end Pfman

